import Mathlib

/-!
Verification development for the fastify-scaling-test backend.

The development shallowly embeds the process-and-resource-management core of
the repository:

* the cache-aside layer built on the Upstash Redis client
  (the fastify plugin registering `cache.get` / `cache.set` / `cache.del` /
  `cache.exists` / `generateKey` / `withCache`, together with its degraded
  "mock cache" modes when credentials are missing or the initial ping fails);
* the database connection pool configuration (`src/db/connection.ts`) and the
  request handlers acquiring and releasing pooled connections
  (`src/routes/crud.ts`, `src/routes/root.ts`);
* the cluster supervisor (`src/server.ts`): worker-count computation, the
  unconditional restart-on-exit handler and the SIGTERM shutdown path.

JavaScript values that may be `null` are embedded as `Option β` with `none`
playing the role of `null`; the Upstash client JSON-serialises on write and
parses on read, which round-trips every JSON-serialisable value, so the store
holds the values themselves.  Fallible Redis round-trips are embedded as
`Except Unit`, and the `try`/`catch` wrappers of the plugin catch the error
and return the fallback the source returns.  Time is explicit: a cache state
carries the current time in seconds and `advance` moves it forward.
-/

/-! ## Cache-aside layer (Redis plugin) -/

/-- State of the external Redis backend as seen by one cache client: the
stored entries (key, stored JS value with `none` for `null`, optional
absolute expiry time in seconds), whether the backend is reachable, and the
current time in seconds. -/
structure CacheState (β : Type) where
  store : List (String × Option β × Option Nat)
  up : Bool
  now : Nat
deriving Repr, DecidableEq

/-- First entry stored under a key, if any. -/
def storeLookup {β : Type} (store : List (String × Option β × Option Nat))
    (k : String) : Option (Option β × Option Nat) :=
  match store with
  | [] => none
  | (k2, v, e) :: rest => if k2 = k then some (v, e) else storeLookup rest k

/-- Whole-value replacement of the entry under a key. -/
def storeWrite {β : Type} (store : List (String × Option β × Option Nat))
    (k : String) (v : Option β) (e : Option Nat) :
    List (String × Option β × Option Nat) :=
  (k, v, e) :: store.filter (fun p => p.1 != k)

/-- `redis.get(key)`: fails when the backend is unreachable; otherwise returns
the stored value if present and unexpired, and `null` (`none`) when the key is
missing or expired.  An entry with expiry `exp` is live while `now < exp`. -/
def redisGet {β : Type} (s : CacheState β) (k : String) :
    Except Unit (Option β) :=
  if s.up then
    .ok (match storeLookup s.store k with
      | some (v, some exp) => if s.now < exp then v else none
      | some (v, none) => v
      | none => none)
  else .error ()

/-- `redis.setex(key, ttl, value)`: write with expiry `now + ttl`. -/
def redisSetex {β : Type} (s : CacheState β) (k : String) (ttl : Nat)
    (v : Option β) : Except Unit (CacheState β) :=
  if s.up then
    .ok { s with store := storeWrite s.store k v (some (s.now + ttl)) }
  else .error ()

/-- `redis.set(key, value)`: write without expiry. -/
def redisSet {β : Type} (s : CacheState β) (k : String) (v : Option β) :
    Except Unit (CacheState β) :=
  if s.up then .ok { s with store := storeWrite s.store k v none }
  else .error ()

/-- `redis.del(key)`. -/
def redisDel {β : Type} (s : CacheState β) (k : String) :
    Except Unit (CacheState β) :=
  if s.up then .ok { s with store := s.store.filter (fun p => p.1 != k) }
  else .error ()

/-- `cache.get` of the plugin: `try { return await redis.get(key) } catch {
log; return null }`. -/
def cacheGet {β : Type} (s : CacheState β) (k : String) : Option β :=
  match redisGet s k with
  | .ok v => v
  | .error _ => none

/-- `cache.set` of the plugin: `if (ttlSeconds)` (truthy, so defined and
nonzero) use `setex`, else plain `set`; errors are caught and logged, the
state is left as it was. -/
def cacheSet {β : Type} (s : CacheState β) (k : String) (v : Option β)
    (ttl : Option Nat) : CacheState β :=
  let r := match ttl with
    | some t => if t != 0 then redisSetex s k t v else redisSet s k v
    | none => redisSet s k v
  match r with
  | .ok s2 => s2
  | .error _ => s

/-- `cache.del` of the plugin: errors are caught and logged. -/
def cacheDel {β : Type} (s : CacheState β) (k : String) : CacheState β :=
  match redisDel s k with
  | .ok s2 => s2
  | .error _ => s

/-- `withCache(key, fetcher, ttlSeconds = 300)` of the plugin: read the key
via `cache.get`; if the cached value is not `null` return it; otherwise call
the fetcher once, store its result via `cache.set(key, result, ttlSeconds)`
and return it.  The embedding returns the new backend state, the returned
value, and how many times the fetcher ran on this call. -/
def withCache {β : Type} (s : CacheState β) (k : String) (fetcher : Option β)
    (ttl : Nat) : CacheState β × Option β × Nat :=
  match cacheGet s k with
  | some v => (s, some v, 0)
  | none => (cacheSet s k fetcher (some ttl), fetcher, 1)

/-- `generateKey(...parts)` of the plugin: `parts.join(':')`. -/
def generateKey : List String → String
  | [] => ""
  | [p] => p
  | p :: rest => p ++ ":" ++ generateKey rest

/-- Degraded-mode `cache.get`: always `null`. -/
def mockCacheGet {β : Type} (_k : String) : Option β := none

/-- Degraded-mode `cache.set`: no-op. -/
def mockCacheSet {β : Type} (s : CacheState β) (_k : String) (_v : Option β)
    (_ttl : Option Nat) : CacheState β := s

/-- Degraded-mode `cache.del`: no-op. -/
def mockCacheDel {β : Type} (s : CacheState β) (_k : String) : CacheState β := s

/-- Degraded-mode `withCache`: `return await fetcher()`. -/
def mockWithCache {β : Type} (_k : String) (fetcher : Option β) (_ttl : Nat) :
    Option β × Nat :=
  (fetcher, 1)

/-- The mode the plugin registers the cache utilities in. -/
inductive CacheMode
  | real
  | degraded
deriving Repr, DecidableEq

/-- Plugin initialization: if the URL or the token is missing, register the
mock cache and return; otherwise ping the backend, and on ping failure
register the mock cache; only with credentials and a successful ping is the
real cache registered. -/
def pluginInit (urlPresent tokenPresent pingOk : Bool) : CacheMode :=
  if !urlPresent || !tokenPresent then .degraded
  else if !pingOk then .degraded
  else .real

/-- Let `d` seconds elapse. -/
def advance {β : Type} (s : CacheState β) (d : Nat) : CacheState β :=
  { s with now := s.now + d }

/-! ## Database connection pool -/

/-- `DB_POOL_MAX` configuration from `src/db/connection.ts`:
`parseInt(process.env.DB_POOL_MAX || '75')`, so `75` when the variable is
unset. -/
def dbPoolMax (env : Option Nat) : Nat := env.getD 75

/-- Pool bounds, immutable after construction. -/
structure PoolConfig where
  maxSize : Nat
  minSize : Nat
deriving Repr, DecidableEq

/-- Modelled from the spec: the acquire/release bookkeeping of the
connection pool.  The pool implementation itself is the external
node-postgres library and is not under `src/`; the repository only
configures it and calls `pool.connect()` / `client.release()`.  Per spec
section 4.2, the pool holds idle and active connections and a FIFO wait
queue, bounded by `maxSize`. -/
structure PoolState where
  idle : Nat
  active : Nat
  waiting : Nat
deriving Repr, DecidableEq

/-- Connections currently held by the pool. -/
def PoolState.total (s : PoolState) : Nat := s.idle + s.active

/-- The pool before any request. -/
def PoolState.initial : PoolState := ⟨0, 0, 0⟩

/-- Pool lifecycle events visible to the repository code. -/
inductive PoolEvent
  | acquire
  | release
deriving Repr, DecidableEq, BEq

/-- Modelled from the spec: one pool transition.  `acquire` hands out an
idle connection when one exists, opens a new connection while under
`maxSize`, and otherwise queues the caller; `release` hands the connection
to a queued waiter when one exists and otherwise returns it to the idle
set. -/
def poolStep (cfg : PoolConfig) (s : PoolState) : PoolEvent → PoolState
  | .acquire =>
    if 0 < s.idle then { s with idle := s.idle - 1, active := s.active + 1 }
    else if s.total < cfg.maxSize then { s with active := s.active + 1 }
    else { s with waiting := s.waiting + 1 }
  | .release =>
    if s.active = 0 then s
    else if 0 < s.waiting then { s with waiting := s.waiting - 1 }
    else { s with active := s.active - 1, idle := s.idle + 1 }

/-- Run the pool over a sequence of events. -/
def poolRun (cfg : PoolConfig) (s : PoolState) (es : List PoolEvent) :
    PoolState :=
  es.foldl (poolStep cfg) s

/-! ## Request handlers that borrow pooled connections -/

/-- Whether the body of a handler (the queries inside its `try`) succeeds or
throws. -/
inductive QueryOutcome
  | ok
  | fail
deriving Repr, DecidableEq

/-- One handler execution: whether it completed by (re)throwing, and the
pool events it performed. -/
structure HandlerRun where
  threw : Bool
  events : List PoolEvent
deriving Repr, DecidableEq

/-- `GET /world/:id` in `src/routes/crud.ts`: `const client = await
pool.connect()`; `try` run the query; `finally` release the client and set
timing headers.  On a query error the `finally` block still releases and the
error propagates. -/
def getWorldById (q : QueryOutcome) : HandlerRun :=
  match q with
  | .ok => { threw := false, events := [.acquire] ++ [.release] }
  | .fail => { threw := true, events := [.acquire] ++ [.release] }

/-- `GET /updates` in `src/routes/root.ts`: `const client = await
pool.connect()`; `try` BEGIN, the updates, COMMIT; `catch` ROLLBACK and
rethrow; `finally` release.  Both exit paths release exactly once. -/
def getUpdates (q : QueryOutcome) : HandlerRun :=
  match q with
  | .ok => { threw := false, events := [.acquire] ++ [.release] }
  | .fail => { threw := true, events := [.acquire] ++ [.release] }

/-- Pool events of a sequence of request/error cycles, each cycle one
handler execution. -/
def cycleEvents (runs : List HandlerRun) : List PoolEvent :=
  (runs.map HandlerRun.events).flatten

/-! ## Cluster supervisor (`src/server.ts`) -/

/-- Worker-count computation of the primary:
`maxWorkers = parseInt(process.env.WORKERS || '0') || Math.min(numCPUs, 12)`
and `numWorkers = Math.min(maxWorkers, 12)`.  An unset variable parses `'0'`
to `0`, which is falsy, so the default `min(numCPUs, 12)` applies; the same
happens when the variable is set to `0`. -/
def numWorkersOf (workersEnv : Option Nat) (numCPUs : Nat) : Nat :=
  let maxWorkers :=
    match workersEnv with
    | some w => if w = 0 then Nat.min numCPUs 12 else w
    | none => Nat.min numCPUs 12
  Nat.min maxWorkers 12

/-- Supervisor state: live worker count, whether SIGTERM handling has begun
(`cluster.disconnect` was called), and whether the primary has exited. -/
structure SupState where
  alive : Nat
  shutdownRequested : Bool
  primaryExited : Bool
deriving Repr, DecidableEq

/-- Events the primary process reacts to. -/
inductive SupEvent
  | workerExit
  | sigterm
  | allDrained
deriving Repr, DecidableEq

/-- One supervisor transition, returning the next state and how many workers
were forked on this event.  From `src/server.ts`: the `cluster.on('exit')`
handler logs and calls `cluster.fork()` with no condition, so a worker exit
always forks one replacement while the primary is running; the SIGTERM
handler calls `cluster.disconnect` with a callback that calls
`process.exit(0)` once all workers have exited. -/
def supStep (s : SupState) : SupEvent → SupState × Nat
  | .workerExit =>
    if s.primaryExited then (s, 0)
    else ({ s with alive := s.alive - 1 + 1 }, 1)
  | .sigterm =>
    if s.primaryExited then (s, 0)
    else ({ s with shutdownRequested := true }, 0)
  | .allDrained =>
    if s.shutdownRequested && s.alive == 0 then
      ({ s with primaryExited := true }, 0)
    else (s, 0)

/-- Run the supervisor over a sequence of events, counting all forks. -/
def supRun (s : SupState) (es : List SupEvent) : SupState × Nat :=
  es.foldl
    (fun acc e =>
      let r := supStep acc.1 e
      (r.1, acc.2 + r.2))
    (s, 0)

/-- Run the supervisor over a sequence of events, counting only the forks
performed after shutdown had begun. -/
def supRunShut (s : SupState) (es : List SupEvent) : SupState × Nat :=
  es.foldl
    (fun acc e =>
      let r := supStep acc.1 e
      (r.1, acc.2 + if acc.1.shutdownRequested then r.2 else 0))
    (s, 0)

/-! ## Helper lemmas -/

lemma cacheGet_of_down {β : Type} (s : CacheState β) (k : String)
    (h : s.up = false) : cacheGet s k = none := by
  simp [cacheGet, redisGet, h]

lemma cacheSet_of_down {β : Type} (s : CacheState β) (k : String) (v : Option β)
    (ttl : Option Nat) (h : s.up = false) : cacheSet s k v ttl = s := by
  unfold cacheSet
  cases ttl with
  | none => simp [redisSet, h]
  | some t =>
    by_cases ht : t = 0 <;> simp [redisSet, redisSetex, h, ht]

lemma cacheDel_of_down {β : Type} (s : CacheState β) (k : String)
    (h : s.up = false) : cacheDel s k = s := by
  simp [cacheDel, redisDel, h]

lemma withCache_count_le_one {β : Type} (s : CacheState β) (k : String)
    (f : Option β) (ttl : Nat) : (withCache s k f ttl).2.2 ≤ 1 := by
  unfold withCache
  cases cacheGet s k <;> simp

/-- After a reachable-backend `cacheSet` with a nonzero ttl, reading the key
`d` seconds later yields the stored value while `d < ttl` and `null`
afterwards. -/
lemma cacheGet_advance_cacheSet {β : Type} (s : CacheState β) (k : String)
    (v : Option β) (ttl d : Nat) (hup : s.up = true) (httl : ttl ≠ 0) :
    cacheGet (advance (cacheSet s k v (some ttl)) d) k
      = if d < ttl then v else none := by
  unfold cacheSet
  simp only [bne_iff_ne, ne_eq, httl, not_false_eq_true, if_true]
  unfold redisSetex
  simp only [hup, if_true]
  unfold advance cacheGet redisGet storeWrite storeLookup
  simp only [hup, if_true, Nat.add_lt_add_iff_left]

/-- A reachable-backend `cacheSet` with ttl `0` takes the no-expiry branch:
the stored value is returned at every later time. -/
lemma cacheGet_advance_cacheSet_zero {β : Type} (s : CacheState β) (k : String)
    (v : Option β) (d : Nat) (hup : s.up = true) :
    cacheGet (advance (cacheSet s k v (some 0)) d) k = v := by
  unfold cacheSet
  simp only [bne_self_eq_false, if_false]
  unfold redisSet
  simp only [hup, if_true]
  unfold advance cacheGet redisGet storeWrite storeLookup
  simp [hup]

/-! ## C2 -/

/-- C2: when the cache backend is unreachable — missing credentials at
initialization, failed initial ping, or a failing call at call time —
`withCache` still returns exactly the fetcher result (calling it once) and
never surfaces a cache error, and `get` / `set` / `del` absorb the failure:
`get` returns `null`, `set` and `del` leave the backend state unchanged.
The degraded-mode (mock) cache registered by the plugin behaves the same
way, and the plugin registers the degraded cache whenever the URL or token
is missing or the ping fails. -/
theorem cache_failOpen {β : Type} (s : CacheState β) (k : String)
    (v f : Option β) (ttl : Nat) (ttlOpt : Option Nat)
    (h : s.up = false) (url token ping : Bool) :
    withCache s k f ttl = (s, f, 1) ∧
    cacheGet s k = none ∧
    cacheSet s k v ttlOpt = s ∧
    cacheDel s k = s ∧
    pluginInit false token ping = CacheMode.degraded ∧
    pluginInit url false ping = CacheMode.degraded ∧
    pluginInit url token false = CacheMode.degraded ∧
    mockWithCache k f ttl = (f, 1) ∧
    (mockCacheGet k : Option β) = none ∧
    mockCacheSet s k v ttlOpt = s ∧
    mockCacheDel s k = s := by
  refine ⟨?_, cacheGet_of_down s k h, cacheSet_of_down s k v ttlOpt h,
    cacheDel_of_down s k h, ?_, ?_, ?_, rfl, rfl, rfl, rfl⟩
  · unfold withCache
    rw [cacheGet_of_down s k h, cacheSet_of_down s k f (some ttl) h]
  · cases token <;> cases ping <;> rfl
  · cases url <;> cases ping <;> rfl
  · cases url <;> cases token <;> rfl

/-- Witness for `cache_failOpen` at a concrete unreachable state. -/
theorem cache_failOpen_witness :
    ({ store := [], up := false, now := 0 } : CacheState Nat).up = false ∧
    withCache ({ store := [], up := false, now := 0 } : CacheState Nat)
      "user:1" (some 7) 60
      = ({ store := [], up := false, now := 0 }, some 7, 1) :=
  ⟨rfl, (cache_failOpen { store := [], up := false, now := 0 } "user:1"
    (some 5) (some 7) 60 (some 60) rfl true true true).1⟩

/-! ## C10 -/

/-- C10: `withCache` performs no negative caching.  Its hit test is
`cached !== null`, so when the key misses and the fetcher returns `null`,
the call invokes the fetcher, and every later `withCache` call on that key
also invokes its fetcher — whatever time has elapsed, ttl window included.
Conversely a call that does not invoke its fetcher got a non-`null` cached
value and returns it. -/
theorem withCache_no_negative_caching {β : Type} (s : CacheState β)
    (k : String) (ttl : Nat) (hmiss : cacheGet s k = none) :
    withCache s k none ttl = (cacheSet s k none (some ttl), none, 1) ∧
    (∀ (f2 : Option β) (ttl2 d : Nat),
      (withCache (advance (withCache s k none ttl).1 d) k f2 ttl2).2.2 = 1) ∧
    (∀ (s2 : CacheState β) (f : Option β),
      (withCache s2 k f ttl).2.2 = 0 →
        ∃ w, cacheGet s2 k = some w ∧ (withCache s2 k f ttl).2.1 = some w) := by
  refine ⟨?_, ?_, ?_⟩
  · unfold withCache
    rw [hmiss]
  · intro f2 ttl2 d
    have h1 : (withCache s k none ttl).1 = cacheSet s k none (some ttl) := by
      unfold withCache
      rw [hmiss]
    rw [h1]
    have hget : cacheGet (advance (cacheSet s k none (some ttl)) d) k = none := by
      cases hup : s.up with
      | false => exact cacheGet_of_down _ k (by simp [cacheSet_of_down s k none _ hup, advance, hup])
      | true =>
        by_cases ht : ttl = 0
        · subst ht
          exact cacheGet_advance_cacheSet_zero s k none d hup
        · rw [cacheGet_advance_cacheSet s k none ttl d hup ht]
          split <;> rfl
    unfold withCache
    rw [hget]
  · intro s2 f h0
    unfold withCache at h0 ⊢
    cases hg : cacheGet s2 k with
    | none => rw [hg] at h0; simp at h0
    | some w => exact ⟨w, rfl, rfl⟩

/-- Witness for `withCache_no_negative_caching`: a null-returning fetcher
is re-invoked on a second call one second later. -/
theorem withCache_no_negative_caching_witness :
    cacheGet ({ store := [], up := true, now := 0 } : CacheState Nat) "w:1"
      = none ∧
    (withCache
      (advance
        (withCache ({ store := [], up := true, now := 0 } : CacheState Nat)
          "w:1" none 60).1 1)
      "w:1" none 60).2.2 = 1 :=
  ⟨rfl, (withCache_no_negative_caching
    { store := [], up := true, now := 0 } "w:1" 60 rfl).2.1 none 60 1⟩

/-! ## C7 -/

/-- C7 counterexample: with `WORKERS=20` and 8 CPUs the primary starts 12
workers, not the 20 the claim promises — `numWorkers = Math.min(maxWorkers,
12)` caps every configured value at 12. -/
theorem numWorkersOf_cex : numWorkersOf (some 20) 8 = 12 ∧ (12 : Nat) ≠ 20 := by
  constructor
  · rfl
  · decide

/-- C7 amended: the startup worker count equals `min(WORKERS, 12)` when
`WORKERS` is set to a nonzero integer, and defaults to `min(CPU count, 12)`
when `WORKERS` is unset or parses to `0`. -/
theorem numWorkersOf_amended (w cpus : Nat) (hw : w ≠ 0) :
    numWorkersOf (some w) cpus = Nat.min w 12 ∧
    numWorkersOf none cpus = Nat.min cpus 12 ∧
    numWorkersOf (some 0) cpus = Nat.min cpus 12 := by
  unfold numWorkersOf
  refine ⟨by simp [hw], ?_, ?_⟩ <;>
    simp [Nat.min_assoc]

/-- Witness for `numWorkersOf_amended` at `WORKERS=4` on 8 CPUs. -/
theorem numWorkersOf_amended_witness :
    (4 : Nat) ≠ 0 ∧ numWorkersOf (some 4) 8 = Nat.min 4 12 :=
  ⟨by decide, (numWorkersOf_amended 4 8 (by decide)).1⟩

/-! ## C5 -/

lemma supStep_workerExit (s : SupState) (h : s.primaryExited = false)
    (ha : 1 ≤ s.alive) : supStep s SupEvent.workerExit = (s, 1) := by
  obtain ⟨a, sd, pe⟩ := s
  replace h : pe = false := h
  replace ha : 1 ≤ a := ha
  subst h
  have h2 : a - 1 + 1 = a := by omega
  unfold supStep
  simp [h2]

lemma supFold_replicate (t c n : Nat) (ht : 1 ≤ t) :
    List.foldl
      (fun acc e =>
        let r := supStep acc.1 e
        (r.1, acc.2 + r.2))
      ((⟨t, false, false⟩ : SupState), c) (List.replicate n SupEvent.workerExit)
      = (⟨t, false, false⟩, c + n) := by
  induction n generalizing c with
  | zero => simp
  | succ n ih =>
    rw [List.replicate_succ, List.foldl_cons]
    have hstep := supStep_workerExit ⟨t, false, false⟩ rfl ht
    simp only [hstep]
    rw [ih (c + 1)]
    simp only [Prod.mk.injEq, true_and]
    omega

/-- C5: while the primary is running, a worker exit makes the
`cluster.on('exit')` handler fork exactly one replacement, restoring the
live worker count; over any number of worker deaths the count stays at the
configured target and one fork is performed per death, with no bound on the
number of restarts. -/
theorem supervisor_restart (s : SupState) (hrun : s.primaryExited = false)
    (halive : 1 ≤ s.alive) (target n : Nat) (htarget : 1 ≤ target) :
    (supStep s SupEvent.workerExit).2 = 1 ∧
    (supStep s SupEvent.workerExit).1.alive = s.alive ∧
    supRun ⟨target, false, false⟩ (List.replicate n SupEvent.workerExit)
      = (⟨target, false, false⟩, n) := by
  rw [supStep_workerExit s hrun halive]
  refine ⟨rfl, rfl, ?_⟩
  unfold supRun
  have h3 := supFold_replicate target 0 n htarget
  simpa using h3

/-- Witness for `supervisor_restart`: a fleet of 4 workers, 3 deaths. -/
theorem supervisor_restart_witness :
    ({ alive := 4, shutdownRequested := false, primaryExited := false }
        : SupState).primaryExited = false ∧
    supRun ⟨4, false, false⟩ (List.replicate 3 SupEvent.workerExit)
      = (⟨4, false, false⟩, 3) :=
  ⟨rfl, (supervisor_restart
    { alive := 4, shutdownRequested := false, primaryExited := false }
    rfl (by decide) 4 3 (by decide)).2.2⟩

/-! ## C6 -/

/-- C6 counterexample: with two workers alive, SIGTERM followed by one
worker exit makes the supervisor fork one replacement after shutdown has
begun — the `cluster.on('exit')` handler has no shutdown guard, so the
claim that no worker exit after shutdown causes a fork fails. -/
theorem shutdown_refork_cex :
    (supRunShut ⟨2, false, false⟩
      [SupEvent.sigterm, SupEvent.workerExit]).2 = 1 ∧ (1 : Nat) ≠ 0 := by
  constructor
  · rfl
  · decide

/-- C6 amended: on SIGTERM the supervisor requests worker disconnect and
the primary exits once all workers have exited; it does not, however, stop
spawning: a worker exit after shutdown begins still forks exactly one
replacement.  Formally: SIGTERM marks shutdown as requested; while the
primary runs, a worker exit forks one worker even with shutdown requested;
and the disconnect callback exits the primary exactly when shutdown was
requested and no worker is left. -/
theorem shutdown_amended (s s2 s3 : SupState)
    (_hreq : s.shutdownRequested = true) (hrun : s.primaryExited = false)
    (halive : 1 ≤ s.alive) (hrun2 : s2.primaryExited = false)
    (hreq3 : s3.shutdownRequested = true) :
    (supStep s SupEvent.workerExit).2 = 1 ∧
    (supStep s2 SupEvent.sigterm).1.shutdownRequested = true ∧
    (s3.alive = 0 → (supStep s3 SupEvent.allDrained).1.primaryExited = true) ∧
    (s3.alive ≠ 0 → supStep s3 SupEvent.allDrained = (s3, 0)) := by
  refine ⟨?_, ?_, ?_, ?_⟩
  · rw [supStep_workerExit s hrun halive]
  · unfold supStep
    rw [hrun2]
    simp
  · intro h0
    unfold supStep
    simp [hreq3, h0]
  · intro h0
    unfold supStep
    simp [hreq3, h0]

/-- Witness for `shutdown_amended` at a concrete shutting-down state. -/
theorem shutdown_amended_witness :
    ({ alive := 2, shutdownRequested := true, primaryExited := false }
        : SupState).shutdownRequested = true ∧
    (supStep
      ({ alive := 2, shutdownRequested := true, primaryExited := false }
        : SupState) SupEvent.workerExit).2 = 1 :=
  ⟨rfl, (shutdown_amended
    { alive := 2, shutdownRequested := true, primaryExited := false }
    { alive := 2, shutdownRequested := false, primaryExited := false }
    { alive := 0, shutdownRequested := true, primaryExited := false }
    rfl rfl (by decide) rfl rfl).1⟩

/-! ## C3 -/

lemma poolStep_total_le (cfg : PoolConfig) (s : PoolState) (e : PoolEvent)
    (h : s.total ≤ cfg.maxSize) : (poolStep cfg s e).total ≤ cfg.maxSize := by
  cases e with
  | acquire =>
    unfold poolStep
    split_ifs with h1 h2 <;> simp [PoolState.total] at * <;> omega
  | release =>
    unfold poolStep
    split_ifs with h1 h2 <;> simp [PoolState.total] at * <;> omega

lemma poolRun_total_le (cfg : PoolConfig) (es : List PoolEvent) :
    ∀ s : PoolState, s.total ≤ cfg.maxSize →
      (poolRun cfg s es).total ≤ cfg.maxSize := by
  induction es with
  | nil => intro s h; simpa [poolRun] using h
  | cons e es ih =>
    intro s h
    have h2 := poolStep_total_le cfg s e h
    simpa [poolRun] using ih (poolStep cfg s e) h2

/-- C3: over every sequence of acquire and release events starting from the
empty pool, the pool never holds more than `maxSize` connections: idle plus
active connections equal the total held connections and stay at or below
`maxSize`; `maxSize` is the configured `DB_POOL_MAX`, defaulting to 75 when
the environment variable is unset. -/
theorem pool_bounded (cfg : PoolConfig) (es : List PoolEvent) :
    (poolRun cfg PoolState.initial es).total ≤ cfg.maxSize ∧
    (poolRun cfg PoolState.initial es).total
      = (poolRun cfg PoolState.initial es).idle
        + (poolRun cfg PoolState.initial es).active ∧
    dbPoolMax none = 75 :=
  ⟨poolRun_total_le cfg es PoolState.initial (by simp [PoolState.initial, PoolState.total]),
   rfl, rfl⟩

/-! ## C4 -/

lemma pool_cycle (cfg : PoolConfig) (h : 1 ≤ cfg.maxSize) (i : Nat) :
    poolRun cfg ⟨i, 0, 0⟩ [PoolEvent.acquire, PoolEvent.release]
      = ⟨if i = 0 then 1 else i, 0, 0⟩ := by
  by_cases hi : i = 0
  · subst hi
    have h0 : 0 < cfg.maxSize := h
    unfold poolRun poolStep
    simp [PoolState.total, h0]
  · unfold poolRun poolStep
    simp only [List.foldl_cons, List.foldl_nil]
    rw [if_pos (by omega : 0 < i)]
    simp only []
    rw [if_neg (by simp : ¬(1 = 0)), if_neg (by omega : ¬(0 < (0 : Nat)))]
    simp [hi]
    omega

lemma pool_cycles (cfg : PoolConfig) (h : 1 ≤ cfg.maxSize) :
    ∀ (runs : List HandlerRun),
      (∀ r ∈ runs, r.events = [PoolEvent.acquire, PoolEvent.release]) →
      ∀ i : Nat, ∃ j : Nat,
        poolRun cfg ⟨i, 0, 0⟩ (cycleEvents runs) = ⟨j, 0, 0⟩ := by
  intro runs
  induction runs with
  | nil => intro _ i; exact ⟨i, rfl⟩
  | cons r rs ih =>
    intro hall i
    have hr : r.events = [PoolEvent.acquire, PoolEvent.release] :=
      hall r (List.mem_cons_self r rs)
    have hrs : ∀ x ∈ rs, x.events = [PoolEvent.acquire, PoolEvent.release] :=
      fun x hx => hall x (List.mem_cons_of_mem r hx)
    have hsplit : cycleEvents (r :: rs) = r.events ++ cycleEvents rs := by
      unfold cycleEvents
      simp
    rw [hsplit, hr]
    unfold poolRun
    rw [List.foldl_append]
    have hcyc := pool_cycle cfg h i
    unfold poolRun at hcyc
    rw [hcyc]
    exact ih hrs (if i = 0 then 1 else i)

/-- C4: in both cited handlers — `GET /world/:id` in `src/routes/crud.ts`
and `GET /updates` in `src/routes/root.ts` — every exit path (query success
or thrown query error) performs exactly one acquire and exactly one release,
and after any sequence of such request/error cycles the pool has no active
(leaked) connection and no waiting caller. -/
theorem handlers_release_once (q : QueryOutcome) (cfg : PoolConfig)
    (h : 1 ≤ cfg.maxSize) (worldQs updateQs : List QueryOutcome) :
    (getWorldById q).events.count PoolEvent.release = 1 ∧
    (getWorldById q).events.count PoolEvent.acquire = 1 ∧
    (getUpdates q).events.count PoolEvent.release = 1 ∧
    (getUpdates q).events.count PoolEvent.acquire = 1 ∧
    (poolRun cfg PoolState.initial
      (cycleEvents
        (worldQs.map getWorldById ++ updateQs.map getUpdates))).active = 0 ∧
    (poolRun cfg PoolState.initial
      (cycleEvents
        (worldQs.map getWorldById ++ updateQs.map getUpdates))).waiting = 0 := by
  refine ⟨?_, ?_, ?_, ?_, ?_, ?_⟩
  · cases q <;> rfl
  · cases q <;> rfl
  · cases q <;> rfl
  · cases q <;> rfl
  all_goals {
    have hall : ∀ r ∈ worldQs.map getWorldById ++ updateQs.map getUpdates,
        r.events = [PoolEvent.acquire, PoolEvent.release] := by
      intro r hr
      rcases List.mem_append.mp hr with hr2 | hr2 <;>
        · obtain ⟨q2, _, rfl⟩ := List.mem_map.mp hr2
          cases q2 <;> rfl
    obtain ⟨j, hj⟩ := pool_cycles cfg h
      (worldQs.map getWorldById ++ updateQs.map getUpdates) hall 0
    have hinit : (PoolState.initial : PoolState) = ⟨0, 0, 0⟩ := rfl
    rw [hinit, hj]
  }

/-- Witness for `handlers_release_once`: default pool size, three cycles of
which two fail. -/
theorem handlers_release_once_witness :
    1 ≤ ({ maxSize := 75, minSize := 10 } : PoolConfig).maxSize ∧
    (getWorldById QueryOutcome.fail).events.count PoolEvent.release = 1 :=
  ⟨by decide, (handlers_release_once QueryOutcome.fail
    { maxSize := 75, minSize := 10 } (by decide)
    [QueryOutcome.ok, QueryOutcome.fail] [QueryOutcome.fail]).1⟩

/-! ## C8 -/

/-- C8 counterexample: at `ttl = 0` the claim fails.  `set` tests
`if (ttlSeconds)`, and `0` is falsy, so `set(k, v, 0)` stores the value
without expiry; one second later — after `ttl = 0` seconds have elapsed —
`get(k)` still returns the value instead of absent. -/
theorem cache_ttl_zero_cex :
    cacheGet
      (advance
        (cacheSet ({ store := [], up := true, now := 0 } : CacheState Nat)
          "k" (some 5) (some 0)) 1) "k" = some 5 ∧
    some 5 ≠ (none : Option Nat) := by
  constructor
  · rfl
  · decide

/-- C8 amended: with the cache backend reachable and a positive ttl,
`set(k, v, ttl)` followed by `get(k)` after `d` elapsed seconds returns the
stored value while `d < ttl` and absent (`null`) once `ttl ≤ d`; in the
example scenario of the spec, a read 61 seconds after `set(k, v, 60)` is
absent. -/
theorem cache_set_get_roundtrip {β : Type} (s : CacheState β) (k : String)
    (v : β) (ttl d : Nat) (hup : s.up = true) (httl : 0 < ttl) :
    (d < ttl →
      cacheGet (advance (cacheSet s k (some v) (some ttl)) d) k = some v) ∧
    (ttl ≤ d →
      cacheGet (advance (cacheSet s k (some v) (some ttl)) d) k = none) := by
  have hne : ttl ≠ 0 := by omega
  rw [cacheGet_advance_cacheSet s k (some v) ttl d hup hne]
  constructor
  · intro hd
    rw [if_pos hd]
  · intro hd
    rw [if_neg (by omega)]

/-- Witness for `cache_set_get_roundtrip`: `ttl = 60`, read after 61
simulated seconds is absent. -/
theorem cache_set_get_roundtrip_witness :
    ({ store := [], up := true, now := 0 } : CacheState Nat).up = true ∧
    (0 : Nat) < 60 ∧ (60 : Nat) ≤ 61 ∧
    cacheGet
      (advance
        (cacheSet ({ store := [], up := true, now := 0 } : CacheState Nat)
          "k" (some 5) (some 60)) 61) "k" = none :=
  ⟨rfl, by decide, by decide,
    (cache_set_get_roundtrip { store := [], up := true, now := 0 } "k" 5 60 61
      rfl (by decide)).2 (by decide)⟩

/-! ## C1 -/

/-- C1 counterexample: with a fetcher whose result is `null`, two
`withCache` calls on the same key one second apart — well within the 60
second ttl — invoke the fetcher twice, not at most once: `null` is stored
but reads back as a miss. -/
theorem withCache_two_calls_cex :
    (1 : Nat) < 60 ∧
    (withCache ({ store := [], up := true, now := 0 } : CacheState Nat)
        "k" none 60).2.2
      + (withCache
          (advance
            (withCache ({ store := [], up := true, now := 0 } : CacheState Nat)
              "k" none 60).1 1)
          "k" none 60).2.2 = 2 := by
  constructor
  · decide
  · rfl

/-- C1 amended: `withCache(k, f, ttl)` first calls `get(k)`; on a non-null
cached value it returns it without calling `f`; otherwise it calls `f`
exactly once, stores the result via `set(k, result, ttl)` and returns it.
Provided the cache backend is reachable and the result of `f` is non-null,
two calls within `ttl` seconds invoke `f` at most once, and — for positive
`ttl`, starting from a miss — a second call made once `ttl` seconds have
elapsed invokes `f` again. -/
theorem withCache_readThrough {β : Type} (s : CacheState β) (k : String)
    (f : Option β) (val : β) (ttl d : Nat) :
    (∀ w, cacheGet s k = some w → withCache s k f ttl = (s, some w, 0)) ∧
    (cacheGet s k = none →
      withCache s k f ttl = (cacheSet s k f (some ttl), f, 1)) ∧
    (s.up = true → d < ttl →
      (withCache s k (some val) ttl).2.2
        + (withCache (advance (withCache s k (some val) ttl).1 d) k
            (some val) ttl).2.2 ≤ 1) ∧
    (s.up = true → 0 < ttl → ttl ≤ d → cacheGet s k = none →
      (withCache (advance (withCache s k f ttl).1 d) k f ttl).2.2 = 1) := by
  refine ⟨?_, ?_, ?_, ?_⟩
  · intro w hw
    unfold withCache
    rw [hw]
  · intro hmiss
    unfold withCache
    rw [hmiss]
  · intro hup hd
    cases hg : cacheGet s k with
    | some w =>
      have h1 : withCache s k (some val) ttl = (s, some w, 0) := by
        unfold withCache
        rw [hg]
      rw [h1]
      show 0 + (withCache (advance s d) k (some val) ttl).2.2 ≤ 1
      rw [Nat.zero_add]
      exact withCache_count_le_one (advance s d) k (some val) ttl
    | none =>
      have h1 : withCache s k (some val) ttl
          = (cacheSet s k (some val) (some ttl), some val, 1) := by
        unfold withCache
        rw [hg]
      rw [h1]
      have hne : ttl ≠ 0 := by omega
      have h2 : cacheGet (advance (cacheSet s k (some val) (some ttl)) d) k
          = some val := by
        rw [cacheGet_advance_cacheSet s k (some val) ttl d hup hne, if_pos hd]
      have h3 : (withCache (advance (cacheSet s k (some val) (some ttl)) d) k
          (some val) ttl).2.2 = 0 := by
        unfold withCache
        rw [h2]
      simp only [h3]
      omega
  · intro hup httl hd hmiss
    have h1 : withCache s k f ttl = (cacheSet s k f (some ttl), f, 1) := by
      unfold withCache
      rw [hmiss]
    rw [h1]
    have hne : ttl ≠ 0 := by omega
    have h2 : cacheGet (advance (cacheSet s k f (some ttl)) d) k = none := by
      rw [cacheGet_advance_cacheSet s k f ttl d hup hne, if_neg (by omega)]
    unfold withCache
    rw [h2]

/-- Witness for `withCache_readThrough`: on a fresh reachable backend the
first call fetches once and the second call 10 seconds later (ttl 60) hits
the cache, so the fetcher runs at most once across the two calls. -/
theorem withCache_readThrough_witness :
    ({ store := [], up := true, now := 0 } : CacheState Nat).up = true ∧
    (10 : Nat) < 60 ∧
    (withCache ({ store := [], up := true, now := 0 } : CacheState Nat)
        "k" (some 42) 60).2.2
      + (withCache
          (advance
            (withCache
              ({ store := [], up := true, now := 0 } : CacheState Nat)
              "k" (some 42) 60).1 10)
          "k" (some 42) 60).2.2 ≤ 1 :=
  ⟨rfl, by decide,
    (withCache_readThrough { store := [], up := true, now := 0 } "k"
      (some 42) 42 60 10).2.2.1 rfl (by decide)⟩

/-! ## C9 -/

lemma generateKey_singleton (p : String) : generateKey [p] = p := rfl

lemma generateKey_cons (p q : String) (t : List String) :
    generateKey (p :: q :: t) = p ++ ":" ++ generateKey (q :: t) := rfl

lemma generateKey_cons_data (p q : String) (t : List String) :
    (generateKey (p :: q :: t)).data = p.data ++ ':' :: (generateKey (q :: t)).data := by
  rw [generateKey_cons]
  simp [String.data_append]

lemma append_colon_inj : ∀ (a b r1 r2 : List Char), ':' ∉ a → ':' ∉ b →
    a ++ ':' :: r1 = b ++ ':' :: r2 → a = b ∧ r1 = r2 := by
  intro a
  induction a with
  | nil =>
    intro b r1 r2 _ hb h
    cases b with
    | nil =>
      simp only [List.nil_append] at h
      injection h with _ h2
      exact ⟨rfl, h2⟩
    | cons c bt =>
      exfalso
      simp only [List.nil_append, List.cons_append] at h
      injection h with h1 _
      exact hb (by rw [← h1]; exact List.mem_cons_self _ _)
  | cons x xt ih =>
    intro b r1 r2 ha hb h
    cases b with
    | nil =>
      exfalso
      simp only [List.cons_append, List.nil_append] at h
      injection h with h1 _
      exact ha (by rw [h1]; exact List.mem_cons_self _ _)
    | cons y bt =>
      simp only [List.cons_append] at h
      injection h with h1 h2
      have ha2 : ':' ∉ xt := fun hm => ha (List.mem_cons_of_mem _ hm)
      have hb2 : ':' ∉ bt := fun hm => hb (List.mem_cons_of_mem _ hm)
      obtain ⟨hab, hr⟩ := ih bt r1 r2 ha2 hb2 h2
      constructor
      · rw [h1, hab]
      · exact hr

lemma generateKey_inj : ∀ (l1 l2 : List String), l1 ≠ [] → l2 ≠ [] →
    (∀ p ∈ l1, ':' ∉ p.data) → (∀ p ∈ l2, ':' ∉ p.data) →
    generateKey l1 = generateKey l2 → l1 = l2 := by
  intro l1
  induction l1 with
  | nil => intro l2 h1 _ _ _ _; exact absurd rfl h1
  | cons p t1 ih =>
    intro l2 _ h2 hc1 hc2 heq
    cases t1 with
    | nil =>
      cases l2 with
      | nil => exact absurd rfl h2
      | cons q t2 =>
        cases t2 with
        | nil =>
          rw [generateKey_singleton, generateKey_singleton] at heq
          rw [heq]
        | cons r t3 =>
          exfalso
          have hp : ':' ∉ p.data := hc1 p (List.mem_cons_self _ _)
          apply hp
          have hdata := congrArg String.data heq
          rw [generateKey_singleton, generateKey_cons_data] at hdata
          rw [hdata]
          simp
    | cons p2 t1t =>
      cases l2 with
      | nil => exact absurd rfl h2
      | cons q t2 =>
        cases t2 with
        | nil =>
          exfalso
          have hq : ':' ∉ q.data := hc2 q (List.mem_cons_self _ _)
          apply hq
          have hdata := congrArg String.data heq
          rw [generateKey_singleton, generateKey_cons_data] at hdata
          rw [← hdata]
          simp
        | cons r t3 =>
          have hdata := congrArg String.data heq
          rw [generateKey_cons_data, generateKey_cons_data] at hdata
          have hp : ':' ∉ p.data := hc1 p (List.mem_cons_self _ _)
          have hq : ':' ∉ q.data := hc2 q (List.mem_cons_self _ _)
          obtain ⟨hab, hr⟩ := append_colon_inj p.data q.data _ _ hp hq hdata
          have hpq : p = q := String.ext hab
          have hrest : generateKey (p2 :: t1t) = generateKey (r :: t3) :=
            String.ext hr
          have hc1t : ∀ x ∈ p2 :: t1t, ':' ∉ x.data :=
            fun x hx => hc1 x (List.mem_cons_of_mem _ hx)
          have hc2t : ∀ x ∈ r :: t3, ':' ∉ x.data :=
            fun x hx => hc2 x (List.mem_cons_of_mem _ hx)
          have htail := ih (r :: t3) (by simp) (by simp) hc1t hc2t hrest
          rw [hpq, htail]

/-- C9 counterexample: two distinct part sequences produce the same key —
`generateKey(["a:b"])` and `generateKey(["a", "b"])` both yield `"a:b"` —
so the join is not collision-free over all distinct parameter tuples. -/
theorem generateKey_cex :
    generateKey ["a:b"] = generateKey ["a", "b"] ∧
    (["a:b"] : List String) ≠ ["a", "b"] := by
  constructor
  · rfl
  · decide

/-- C9 amended: `generateKey` is the pure deterministic join of its parts
with `":"`, and it is collision-free for distinct nonempty part sequences
whose parts do not themselves contain the separator `':'`. -/
theorem generateKey_spec :
    (∀ p, generateKey [p] = p) ∧
    (∀ p q t, generateKey (p :: q :: t) = p ++ ":" ++ generateKey (q :: t)) ∧
    (∀ l1 l2 : List String, l1 ≠ [] → l2 ≠ [] →
      (∀ p ∈ l1, ':' ∉ p.data) → (∀ p ∈ l2, ':' ∉ p.data) →
      generateKey l1 = generateKey l2 → l1 = l2) :=
  ⟨generateKey_singleton, generateKey_cons, generateKey_inj⟩

/-- Witness for `generateKey_spec` on concrete colon-free parts. -/
theorem generateKey_spec_witness :
    (["users", "42"] : List String) ≠ [] ∧
    (∀ p ∈ (["users", "42"] : List String), ':' ∉ p.data) ∧
    generateKey ["users", "42"] = generateKey ["users", "42"] ∧
    (["users", "42"] : List String) = ["users", "42"] :=
  ⟨by decide, by decide, rfl,
    generateKey_spec.2.2 ["users", "42"] ["users", "42"] (by decide)
      (by decide) (by decide) (by decide) rfl⟩
